import Mathlib

/-!
Verification development for the paperplane-api upload engine.

The definitions below are a shallow embedding of the JavaScript sources
`src/services/uploadService.js`, `src/services/mongodb.js` and
`src/services/s3.js`.  Pure functions become Lean functions; the external
collaborators (HTTP fetch, the S3 client, the MongoDB driver) are abstracted
as deterministic oracles supplied through an environment record, and the
calls the orchestrator issues to them are recorded in an explicit event
trace.  Nested JavaScript objects are represented by value in the main
model (adequate for request bodies parsed from JSON, whose object graphs
are trees); a second, reference-level model of the rewriter near the end of
the file captures the sharing semantics of the shallow copies, which is
needed to reason about mutation of the caller structure.
-/

/-- JavaScript string truthiness for an optional string: `undefined`/`null`
and the empty string are falsy, every other string is truthy. -/
def jsTruthyS : Option String → Bool
  | some s => s ≠ ""
  | none => false

/-- JavaScript `a || b` on optional strings: returns `a` when it is truthy,
otherwise `b`. -/
def jsOr (a b : Option String) : Option String :=
  if jsTruthyS a then a else b

/-- Substring test on character lists: true when `pat` occurs contiguously
inside `s`. -/
def containsSub (s pat : List Char) : Bool :=
  if pat.isPrefixOf s then true
  else
    match s with
    | [] => false
    | _ :: t => containsSub t pat

/-- Substring test on strings, used to state that a message mentions a
given fragment. -/
def strContains (s pat : String) : Bool :=
  containsSub s.data pat.data

/-- Model of JavaScript `String.prototype.trim`: drop leading and
trailing whitespace characters.  Implemented over the character list so
that it evaluates by reduction (the library `String.trim` is built on
substring primitives that do not reduce). -/
def jsTrim (s : String) : String :=
  ⟨((s.data.dropWhile Char.isWhitespace).reverse.dropWhile
      Char.isWhitespace).reverse⟩

/-- Association-list lookup modelling `Map.get` of a JavaScript `Map`
whose keys are pairwise distinct (the migration map is only ever extended
with fresh keys). -/
def alookup : List (String × String) → String → Option String
  | [], _ => none
  | (k, v) :: t, u => if k = u then some v else alookup t u

/-- Deduplication keeping the first occurrence of each element, modelling
`[...new Set(list)]` (a JavaScript `Set` iterates in insertion order). -/
def insertionDedup (l : List String) : List String :=
  l.foldl (fun acc x => if x ∈ acc then acc else acc ++ [x]) []

/-- The caller-chosen logical identifier of a question: a string, a number
(integral in all observed inputs), or the JavaScript `NaN` produced by
failed numeric coercions. -/
inductive JsId where
  | str (s : String)
  | num (n : Int)
  | nan
deriving DecidableEq

/-- Template-literal rendering of an id, as in the JavaScript string
interpolation used to build result messages. -/
def jsIdToString : JsId → String
  | .str s => s
  | .num n => toString n
  | .nan => "NaN"

/-- An answer option.  Only the single image slot `image_url` is relevant
to the upload engine; the remaining option fields are carried along
unchanged and are represented by `text`. -/
structure OptObj where
  text : Option String := none
  image_url : Option String := none
deriving DecidableEq

/-- A content-like block (primary content or comprehension passage) with an
optional list of image URLs. -/
structure ContentBlock where
  images : Option (List String) := none
deriving DecidableEq

/-- One sub-question: repeats the content-images and option-images shapes
of the top level. -/
structure SubQ where
  content : Option ContentBlock := none
  options : Option (List OptObj) := none
deriving DecidableEq

/-- A question record, the unit of work of the upload engine.  `extra`
stands for the remaining top-level fields (subject, chapter, ...) that the
engine spreads through unchanged. -/
structure Question where
  id : JsId
  imageUrl : Option String := none
  content : Option ContentBlock := none
  options : Option (List OptObj) := none
  comprehension_passage : Option ContentBlock := none
  sub_questions : Option (List SubQ) := none
  extra : List (String × String) := []
deriving DecidableEq

/-- Concatenation of a list of lists produced elementwise; used instead of
the library flat-map combinators so that all needed lemmas are proved
locally. -/
def flatMapL (f : α → List β) : List α → List β
  | [] => []
  | a :: t => f a ++ flatMapL f t

/-- Image values of the option list of a question or sub-question, one per
option that has an `image_url` slot at all (truthy or not). -/
def optImageVals (os : Option (List OptObj)) : List String :=
  (os.getD []).filterMap (fun o => o.image_url)

/-- Image values of a content-like block, empty when the block or its
images field is absent. -/
def contentImageVals (c : Option ContentBlock) : List String :=
  match c with
  | some cb => cb.images.getD []
  | none => []

/-- The raw image-URL list pushed by `collectImageUrls` before filtering
and deduplication, in source push order: the legacy field when truthy,
all content images, each truthy option image, all passage images, then per
sub-question its content images and truthy option images. -/
def rawImageUrls (q : Question) : List String :=
  (match q.imageUrl with
   | some u => if u ≠ "" then [u] else []
   | none => []) ++
  contentImageVals q.content ++
  (q.options.getD []).filterMap (fun o =>
    match o.image_url with
    | some u => if u ≠ "" then some u else none
    | none => none) ++
  contentImageVals q.comprehension_passage ++
  flatMapL (fun s =>
    contentImageVals s.content ++
    (s.options.getD []).filterMap (fun o =>
      match o.image_url with
      | some u => if u ≠ "" then some u else none
      | none => none)) (q.sub_questions.getD [])

/-- Embedding of `collectImageUrls` (uploadService.js): push the image URLs
from the six locations, drop falsy and whitespace-only strings, and
deduplicate via a `Set`. -/
def collectImageUrls (q : Question) : List String :=
  insertionDedup
    (List.filter (fun u => u ≠ "" ∧ jsTrim u ≠ "") (rawImageUrls q))

/-- The per-sub-question image slots, used by the specification-side
enumeration of reference locations. -/
def subLocationValues (s : SubQ) : List String :=
  contentImageVals s.content ++ optImageVals s.options

/-- Specification-side enumeration of every image-reference slot of a
question: the legacy top-level field, the content images, each option image
field, the comprehension-passage images, and each sub-question content and
option image field, in that order, with absent fields contributing
nothing. -/
def imageLocationValues (q : Question) : List String :=
  q.imageUrl.toList ++
  contentImageVals q.content ++
  optImageVals q.options ++
  contentImageVals q.comprehension_passage ++
  flatMapL subLocationValues (q.sub_questions.getD [])

/-- Embedding of the content-list substitution `s3UrlMap.get(url) || url`
used by `replaceImageUrls` for content and passage image lists: take the
mapped value when it is present and truthy, otherwise keep the original. -/
def mapGetOr (m : List (String × String)) (u : String) : String :=
  match alookup m u with
  | some t => if t = "" then u else t
  | none => u

/-- Embedding of the legacy-field substitution of `replaceImageUrls`:
`if (updated.imageUrl && s3UrlMap.has(updated.imageUrl)) updated.imageUrl =
s3UrlMap.get(updated.imageUrl)`. -/
def rewriteLegacy (m : List (String × String)) : Option String → Option String
  | some u =>
      if u ≠ "" then
        match alookup m u with
        | some t => some t
        | none => some u
      else some u
  | none => none

/-- Embedding of the per-option substitution of `replaceImageUrls`:
replace `image_url` when it is truthy and present in the map, producing a
fresh option object. -/
def rewriteOpt (m : List (String × String)) (o : OptObj) : OptObj :=
  match o.image_url with
  | some u =>
      if u ≠ "" then
        match alookup m u with
        | some t => { o with image_url := some t }
        | none => o
      else o
  | none => o

/-- Embedding of the content-block substitution of `replaceImageUrls`:
when the block and its images list are present, map the list elementwise. -/
def rewriteContent (m : List (String × String)) :
    Option ContentBlock → Option ContentBlock
  | some cb => some { cb with images := cb.images.map (List.map (mapGetOr m)) }
  | none => none

/-- Embedding of the sub-question substitution of `replaceImageUrls`. -/
def rewriteSub (m : List (String × String)) (s : SubQ) : SubQ :=
  { s with
    content := rewriteContent m s.content,
    options := s.options.map (List.map (rewriteOpt m)) }

/-- Embedding of `replaceImageUrls` (uploadService.js), by value: produce
the question with every mapped reference replaced at each of the six
locations.  The reference-level behaviour of the shallow copies — in
particular writes through shared nested objects — is modelled separately
by `replaceImageUrlsRef` below. -/
def replaceImageUrls (q : Question) (m : List (String × String)) : Question :=
  { q with
    imageUrl := rewriteLegacy m q.imageUrl,
    content := rewriteContent m q.content,
    options := q.options.map (List.map (rewriteOpt m)),
    comprehension_passage := rewriteContent m q.comprehension_passage,
    sub_questions := q.sub_questions.map (List.map (rewriteSub m)) }

/-- Embedding of `extractS3Key` (s3.js): `new URL(u).pathname.substring(1)`
for the well-formed object URLs the gateway emits, i.e. everything after
the scheme and host. -/
def extractS3Key (u : String) : String :=
  "/".intercalate ((u.splitOn "/").drop 3)

/-- One tolerated per-image migration failure, as recorded in the
`failedImages` list: the source URL and the error message. -/
structure FailedImage where
  url : String
  error : String
deriving DecidableEq

/-- Result of the step-1 migration loop of `uploadQuestionToDB`: the
insertion-ordered migration map `m` (original URL to object-store URL),
the recorded object-store keys for rollback, and the tolerated
failures. -/
structure MigOut where
  m : List (String × String)
  keys : List String
  failed : List FailedImage
deriving DecidableEq

/-- Oracle environment abstracting the external collaborators of the
orchestrator: `existsQ` is `questionExists`, `upload` is `uploadImageToS3`
(ok with the returned object URL, or the thrown message), `insertResult`
is the outcome of the MongoDB insert keyed by the logical id of the
question being saved, and the two delete oracles are the rollback
operations, whose outcomes the orchestrator swallows.  `now` stands for
the insertion timestamp. -/
structure Env where
  existsQ : JsId → Except String Bool
  upload : String → Except String String
  insertResult : JsId → Except String String
  deleteDocResult : String → Except String Unit
  deleteObjResult : String → Except String Unit
  now : Nat

/-- Embedding of the step-1 loop of `uploadQuestionToDB`: attempt an
upload per distinct reference; a success appends one map entry and one key
derived from the returned URL, a failure appends one `failedImages`
entry. -/
def migrateImages (env : Env) : List String → MigOut
  | [] => ⟨[], [], []⟩
  | u :: rest =>
    match env.upload u with
    | .ok s =>
        let o := migrateImages env rest
        ⟨(u, s) :: o.m, extractS3Key s :: o.keys, o.failed⟩
    | .error e =>
        let o := migrateImages env rest
        ⟨o.m, o.keys, ⟨u, e⟩ :: o.failed⟩

/-- The document shape persisted by `saveQuestionToMongoDB` (mongodb.js):
the spread of the supplied question with its `imageUrl` overridden by
`s3ImageUrl || question.imageUrl`, plus the bookkeeping fields
`uploadedAt`, `originalImageUrl` (the `imageUrl` of the supplied question)
and `s3ImageUrl`. -/
structure MongoDoc where
  question : Question
  uploadedAt : Nat
  originalImageUrl : Option String
  s3ImageUrl : Option String
deriving DecidableEq

/-- Embedding of `saveQuestionToMongoDB` (mongodb.js): build the document
to insert and report the outcome of the insert call.  On success the
store-assigned identifier is returned as a string. -/
def saveQuestionToMongoDB (env : Env) (question : Question)
    (s3ImageUrl : Option String) : MongoDoc × Except String String :=
  ({ question := { question with imageUrl := jsOr s3ImageUrl question.imageUrl },
     uploadedAt := env.now,
     originalImageUrl := question.imageUrl,
     s3ImageUrl := jsOr s3ImageUrl question.imageUrl },
   env.insertResult question.id)

/-- The calls the orchestrator issues to its collaborators, in order:
the duplicate check, each image upload attempt, the document insert, and
the rollback deletions. -/
inductive Ev where
  | existsCheck (id : JsId)
  | uploadImage (url : String)
  | insertDoc (doc : MongoDoc)
  | deleteDoc (storeId : String)
  | deleteObj (key : String)
deriving DecidableEq

/-- Rollback actions of the catch block of `uploadQuestionToDB`: one
document deletion iff a truthy store id had been obtained, then one
object-store deletion per recorded key, attempted unconditionally; the
outcomes of these deletions are swallowed. -/
def rollbackEvs (mongoId : Option String) (keys : List String) : List Ev :=
  (match mongoId with
   | some mid => if mid ≠ "" then [Ev.deleteDoc mid] else []
   | none => []) ++ keys.map Ev.deleteObj

/-- Success message of `uploadQuestionToDB`, with the warning suffix
mentioning the number of failed images when any failed. -/
def successMessage (failed : List FailedImage) : String :=
  if failed.isEmpty then "Successfully uploaded to database!"
  else "Successfully uploaded to database!" ++ " Warning: " ++
    toString failed.length ++
    " image(s) failed to upload to S3. The question was saved with original image URLs."

/-- The result object returned by the single-question upload protocol. -/
structure UploadResult where
  success : Bool
  message : String
  s3Urls : Option (List String) := none
  mongoId : Option String := none
  failedImages : Option (List FailedImage) := none
deriving DecidableEq

/-- Embedding of `uploadQuestionToDB` (uploadService.js): duplicate check,
per-image migration with tolerated failures, reference rewrite, document
insert, and the compensating rollback converting any escaping fault into a
structured failure result.  The second component is the trace of calls
issued to the collaborators. -/
def uploadQuestionToDB (env : Env) (q : Question) : UploadResult × List Ev :=
  match env.existsQ q.id with
  | .error e =>
      ({ success := false,
         message := "Upload failed: " ++ e ++ ". All changes have been rolled back." },
       Ev.existsCheck q.id :: rollbackEvs none [])
  | .ok true =>
      ({ success := false,
         message := "Question " ++ jsIdToString q.id ++
           " already exists in database. Please delete it first or use a different question." },
       [Ev.existsCheck q.id])
  | .ok false =>
      let urls := collectImageUrls q
      let mig := migrateImages env urls
      let q2 := replaceImageUrls q mig.m
      let saved := saveQuestionToMongoDB env q2 (q.imageUrl.bind (alookup mig.m))
      let evs := Ev.existsCheck q.id :: urls.map Ev.uploadImage ++ [Ev.insertDoc saved.1]
      match saved.2 with
      | .ok mid =>
          ({ success := true,
             message := successMessage mig.failed,
             s3Urls := some (mig.m.map Prod.snd),
             mongoId := some mid,
             failedImages := if mig.failed.isEmpty then none else some mig.failed },
           evs)
      | .error e =>
          ({ success := false,
             message := "Upload failed: " ++ e ++ ". All changes have been rolled back." },
           evs ++ rollbackEvs none mig.keys)

/-- The batch result `{successful, failed, results}`. -/
structure BatchResult where
  successful : Nat
  failed : Nat
  results : List UploadResult
deriving DecidableEq

/-- Embedding of `uploadMultipleQuestions` (uploadService.js): iterate the
single-question protocol sequentially, push each result and bump the
matching counter. -/
def uploadMultipleQuestions (env : Env) (qs : List Question) : BatchResult :=
  let out := qs.foldl
    (fun acc q =>
      let r := (uploadQuestionToDB env q).1
      (acc.1 ++ [r],
       if r.success then acc.2.1 + 1 else acc.2.1,
       if r.success then acc.2.2 else acc.2.2 + 1))
    ([], 0, 0)
  ⟨out.2.1, out.2.2, out.1⟩

/-- Specification-side batch semantics: invoke the single-question
protocol sequentially for each question and accumulate the individual
results in submission order. -/
def runSequential (env : Env) : List Question → List UploadResult
  | [] => []
  | q :: t => (uploadQuestionToDB env q).1 :: runSequential env t

/-- Oracle environment of the object-store gateway (s3.js): the outcome of
the HTTP download per source URL, the hex digest produced by the hash of
the source URL with the timestamp and random suffix (opaque here), the
outcome of the put command, the lazily resolved bucket name of the second
implementation, and the region. -/
structure S3Env where
  fetchs : String → Except String Unit
  hashHex : String → String
  putResult : Except String Unit
  bucket : Option String
  region : String

/-- Calls the gateway issues: the HTTP download and the object put. -/
inductive S3Ev where
  | fetch (url : String)
  | putObject (key : String)
deriving DecidableEq

/-- Embedding of `generateImageHash` (s3.js): hash-based name under
`questions/`, preserving the extension taken from the URL path before any
query string, defaulting to `jpg`. -/
def generateImageHash (hashHex : String → String) (imageUrl : String) : String :=
  let urlParts := ((imageUrl.splitOn "?").headD "").splitOn "."
  let extension := if urlParts.length > 1 then urlParts.getLastD "jpg" else "jpg"
  "questions/" ++ hashHex imageUrl ++ "." ++ extension

/-- Embedding of the first implementation of `uploadImageToS3` (s3.js,
eager-initialization version): guard against a falsy source URL, download,
derive the key, put, and return the fully qualified object URL.  The
second component is the list of external calls made. -/
def uploadImageToS3 (env : S3Env) (bucket : String) (imageUrl : Option String) :
    Except String String × List S3Ev :=
  if jsTruthyS imageUrl then
    match imageUrl with
    | none => (.error "No image URL provided", [])
    | some u =>
      match env.fetchs u with
      | .error e => (.error e, [S3Ev.fetch u])
      | .ok _ =>
        let key := generateImageHash env.hashHex u
        match env.putResult with
        | .error e => (.error e, [S3Ev.fetch u, S3Ev.putObject key])
        | .ok _ =>
            (.ok ("https://" ++ bucket ++ ".s3." ++ env.region ++
               ".amazonaws.com/" ++ key),
             [S3Ev.fetch u, S3Ev.putObject key])
  else (.error "No image URL provided", [])

/-- Embedding of the second implementation of `uploadImageToS3` (s3.js,
lazy-initialization version): the same falsy guard first, then download,
key derivation, lazy bucket resolution (failing when the bucket is not
configured), put, and URL construction; the surrounding try/catch
re-throws, so the observable outcomes coincide. -/
def uploadImageToS3V2 (env : S3Env) (imageUrl : Option String) :
    Except String String × List S3Ev :=
  if jsTruthyS imageUrl then
    match imageUrl with
    | none => (.error "No image URL provided", [])
    | some u =>
      match env.fetchs u with
      | .error e => (.error e, [S3Ev.fetch u])
      | .ok _ =>
        let key := generateImageHash env.hashHex u
        match env.bucket with
        | none =>
            (.error "S3_BUCKET_NAME not configured. Make sure configuration is initialized.",
             [S3Ev.fetch u])
        | some b =>
          match env.putResult with
          | .error e => (.error e, [S3Ev.fetch u, S3Ev.putObject key])
          | .ok _ =>
              (.ok ("https://" ++ b ++ ".s3." ++ env.region ++
                 ".amazonaws.com/" ++ key),
               [S3Ev.fetch u, S3Ev.putObject key])
  else (.error "No image URL provided", [])

/-- A persisted question document as seen by the lookup operations: the
store-assigned identifier and the logical `id` field. -/
structure StoredDoc where
  storeOid : String
  id : JsId
deriving DecidableEq

/-- Value of one digit character in the given base, if any. -/
def digitVal (base : Nat) (c : Char) : Option Nat :=
  let v : Option Nat :=
    if c.isDigit then some (c.toNat - 48)
    else if 'a' ≤ c ∧ c ≤ 'f' then some (c.toNat - 87)
    else if 'A' ≤ c ∧ c ≤ 'F' then some (c.toNat - 55)
    else none
  v.bind (fun n => if n < base then some n else none)

/-- The longest prefix of digits of the given base, as values. -/
def digitList (base : Nat) : List Char → List Nat
  | [] => []
  | c :: t =>
    match digitVal base c with
    | some v => v :: digitList base t
    | none => []

/-- Parse the leading digit run; `none` models the `NaN` result of
JavaScript `parseInt` when no digit is present. -/
def jsParseDigits (base : Nat) (cs : List Char) : Option Nat :=
  let ds := digitList base cs
  if ds.isEmpty then none
  else some (ds.foldl (fun a d => a * base + d) 0)

/-- Embedding of JavaScript `parseInt` on a string: skip leading
whitespace, read an optional sign, detect a hexadecimal prefix, and parse
the longest digit run; `none` stands for `NaN`. -/
def jsParseIntStr (s : String) : Option Int :=
  let cs := s.data.dropWhile Char.isWhitespace
  let signed : Bool × List Char :=
    match cs with
    | '-' :: t => (true, t)
    | '+' :: t => (false, t)
    | _ => (false, cs)
  let parsed :=
    match signed.2 with
    | '0' :: 'x' :: t => jsParseDigits 16 t
    | '0' :: 'X' :: t => jsParseDigits 16 t
    | _ => jsParseDigits 10 signed.2
  parsed.map (fun n => if signed.1 then -(n : Int) else (n : Int))

/-- JavaScript `parseInt` applied to an id value: numbers pass through
(ids are integral), strings are parsed, and `NaN` propagates. -/
def jsParseInt : JsId → JsId
  | .num n => .num n
  | .nan => .nan
  | .str s =>
    match jsParseIntStr s with
    | some n => .num n
    | none => .nan

/-- MongoDB query equality on id values: strings match strings, numbers
match numbers, and the two sorts never match each other; a `NaN` query
value matches only stored `NaN`. -/
def mongoEq : JsId → JsId → Bool
  | .str a, .str b => a = b
  | .num a, .num b => a = b
  | .nan, .nan => true
  | _, _ => false

/-- MongoDB `findOne`: the first document of the collection, in natural
order, satisfying the query predicate. -/
def findOne (p : StoredDoc → Bool) : List StoredDoc → Option StoredDoc
  | [] => none
  | d :: t => if p d then some d else findOne p t

/-- Embedding of `getQuestionById` (mongodb.js):
`findOne({ id: parseInt(questionId) })`, i.e. the first document whose
logical `id` field matches the `parseInt` coercion of the supplied
value. -/
def getQuestionById (store : List StoredDoc) (questionId : JsId) :
    Option StoredDoc :=
  findOne (fun d => mongoEq d.id (jsParseInt questionId)) store

/-- Heap of content-like objects for the reference-level model of the
rewriter: address `r` holds the value of the `images` field of the object
(`none` when the field is absent). -/
abbrev ObjHeap := List (Option (List String))

/-- Read the `images` field of the content object at address `r`. -/
def heapImages (h : ObjHeap) (r : Nat) : Option (List String) :=
  (h.getD r none)

/-- Assign the `images` field of the content object at address `r`. -/
def heapSet (h : ObjHeap) (r : Nat) (v : List String) : ObjHeap :=
  h.set r (some v)

/-- A sub-question in the reference-level model: its content block is a
shared reference into the heap. -/
structure SubQRef where
  content : Option Nat := none
  options : Option (List OptObj) := none
deriving DecidableEq

/-- A question in the reference-level model: the content and passage
blocks are shared references into the heap, exactly as the JavaScript
object graph shares them with the shallow copy made by the rewriter. -/
structure QuestionRef where
  imageUrl : Option String := none
  content : Option Nat := none
  options : Option (List OptObj) := none
  comprehension_passage : Option Nat := none
  sub_questions : Option (List SubQRef) := none
deriving DecidableEq

/-- The content-images assignment of `replaceImageUrls` at reference
level: `updated.content.images = updated.content.images.map(...)` writes
through the reference shared with the caller. -/
def rewriteContentRef (m : List (String × String)) (h : ObjHeap)
    (r? : Option Nat) : ObjHeap :=
  match r? with
  | some r =>
    match heapImages h r with
    | some l => heapSet h r (l.map (mapGetOr m))
    | none => h
  | none => h

/-- The sub-question pass of `replaceImageUrls` at reference level: each
shallow-copied sub-question keeps the shared content reference, whose
images list is assigned through the heap. -/
def rewriteSubsRef (m : List (String × String)) :
    List SubQRef → ObjHeap → List SubQRef × ObjHeap
  | [], h => ([], h)
  | s :: t, h =>
      let h1 := rewriteContentRef m h s.content
      let s2 : SubQRef := { s with options := s.options.map (List.map (rewriteOpt m)) }
      let rest := rewriteSubsRef m t h1
      (s2 :: rest.1, rest.2)

/-- Embedding of `replaceImageUrls` at reference level: the shallow copy
`{ ...question }` shares the nested content, passage and sub-question
content objects with the caller, so the image-list assignments mutate the
heap the caller also sees.  Returns the derived question together with the
final heap. -/
def replaceImageUrlsRef (q : QuestionRef) (m : List (String × String))
    (h : ObjHeap) : QuestionRef × ObjHeap :=
  let imageUrl2 := rewriteLegacy m q.imageUrl
  let h1 := rewriteContentRef m h q.content
  let options2 := q.options.map (List.map (rewriteOpt m))
  let h2 := rewriteContentRef m h1 q.comprehension_passage
  match q.sub_questions with
  | some subs =>
      let sr := rewriteSubsRef m subs h2
      ({ q with
          imageUrl := imageUrl2,
          options := options2,
          sub_questions := some sr.1 }, sr.2)
  | none =>
      ({ q with imageUrl := imageUrl2, options := options2 }, h2)

/-- Event observations used to state trace properties. -/
def deleteObjKeyOf : Ev → Option String
  | .deleteObj k => some k
  | _ => none

/-- Observation of document-store delete events. -/
def isDeleteDocEv : Ev → Bool
  | .deleteDoc _ => true
  | _ => false

/-- Observation of image-upload attempt events. -/
def isUploadEv : Ev → Bool
  | .uploadImage _ => true
  | _ => false

/-- Observation of document-insert events. -/
def insertedDocOf : Ev → Option MongoDoc
  | .insertDoc d => some d
  | _ => none

/-- The first inserted document recorded in a trace, if any. -/
def getInsertedDoc (tr : List Ev) : Option MongoDoc :=
  tr.findSome? insertedDocOf

lemma isPrefixOf_append_self (b c : List Char) : b.isPrefixOf (b ++ c) = true := by
  simp [ List.isPrefixOf_iff_prefix]

lemma containsSub_append_mid (a b c : List Char) :
    containsSub (a ++ (b ++ c)) b = true := by
  induction a with
  | nil =>
      rw [List.nil_append, containsSub.eq_def, if_pos (isPrefixOf_append_self b c)]
  | cons x t ih =>
      rw [List.cons_append, containsSub.eq_def]
      split
      · rfl
      · exact ih

lemma mem_foldl_dedup (l : List String) (acc : List String) (y : String) :
    y ∈ l.foldl (fun acc x => if x ∈ acc then acc else acc ++ [x]) acc ↔
      y ∈ acc ∨ y ∈ l := by
  induction l generalizing acc with
  | nil => simp
  | cons x t ih =>
      rw [List.foldl_cons, ih]
      by_cases hx : x ∈ acc
      · simp only [if_pos hx, List.mem_cons]
        constructor
        · rintro (h | h)
          · exact Or.inl h
          · exact Or.inr (Or.inr h)
        · rintro (h | h | h)
          · exact Or.inl h
          · exact Or.inl (h ▸ hx)
          · exact Or.inr h
      · simp only [if_neg hx, List.mem_append, List.mem_singleton, List.mem_cons]
        tauto

lemma nodup_foldl_dedup (l : List String) (acc : List String) (h : acc.Nodup) :
    (l.foldl (fun acc x => if x ∈ acc then acc else acc ++ [x]) acc).Nodup := by
  induction l generalizing acc with
  | nil => simpa using h
  | cons x t ih =>
      rw [List.foldl_cons]
      by_cases hx : x ∈ acc
      · rw [if_pos hx]; exact ih acc h
      · rw [if_neg hx]
        refine ih _ ?_
        simpa [List.nodup_append] using ⟨h, hx⟩

lemma mem_insertionDedup (l : List String) (y : String) :
    y ∈ insertionDedup l ↔ y ∈ l := by
  unfold insertionDedup
  rw [mem_foldl_dedup]
  simp

lemma nodup_insertionDedup (l : List String) : (insertionDedup l).Nodup :=
  nodup_foldl_dedup l [] List.nodup_nil

lemma alookup_mem {m : List (String × String)} {u v : String}
    (h : alookup m u = some v) : (u, v) ∈ m := by
  induction m with
  | nil => simp [alookup] at h
  | cons p t ih =>
      obtain ⟨k, w⟩ := p
      rw [alookup] at h
      by_cases hk : k = u
      · rw [if_pos hk] at h
        cases h
        simp [hk]
      · rw [if_neg hk] at h
        exact List.mem_cons_of_mem _ (ih h)

lemma alookup_eq_none {m : List (String × String)} {u : String}
    (h : ∀ p ∈ m, p.1 ≠ u) : alookup m u = none := by
  induction m with
  | nil => rfl
  | cons p t ih =>
      obtain ⟨k, w⟩ := p
      rw [alookup]
      rw [if_neg (h (k, w) (List.mem_cons_self _ _))]
      exact ih (fun p hp => h p (List.mem_cons_of_mem _ hp))

lemma length_filterMap_eq_countP (f : α → Option β) (l : List α) :
    (l.filterMap f).length = l.countP (fun a => (f a).isSome) := by
  induction l with
  | nil => rfl
  | cons x t ih =>
      rw [List.filterMap_cons, List.countP_cons]
      cases hx : f x <;> simp [hx, ih]

lemma migrate_m_eq (env : Env) (urls : List String) :
    (migrateImages env urls).m =
      urls.filterMap (fun u => (env.upload u).toOption.map (fun s => (u, s))) := by
  induction urls with
  | nil => rfl
  | cons u rest ih =>
      rw [migrateImages, List.filterMap_cons]
      cases hu : env.upload u <;> simp [hu, Except.toOption, ih]

lemma migrate_keys_eq (env : Env) (urls : List String) :
    (migrateImages env urls).keys =
      (migrateImages env urls).m.map (fun p => extractS3Key p.2) := by
  induction urls with
  | nil => rfl
  | cons u rest ih =>
      rw [migrateImages]
      cases hu : env.upload u <;> simp [ih]

lemma migrate_failed_eq (env : Env) (urls : List String) :
    (migrateImages env urls).failed =
      urls.filterMap (fun u =>
        match env.upload u with
        | .error e => some ⟨u, e⟩
        | .ok _ => none) := by
  induction urls with
  | nil => rfl
  | cons u rest ih =>
      rw [migrateImages, List.filterMap_cons]
      cases hu : env.upload u <;> simp [hu, ih]

lemma migrate_len (env : Env) (urls : List String) :
    (migrateImages env urls).m.length + (migrateImages env urls).failed.length =
      urls.length := by
  induction urls with
  | nil => rfl
  | cons u rest ih =>
      rw [migrateImages]
      cases hu : env.upload u with
      | ok s =>
          simp only [List.length_cons]
          omega
      | error e =>
          simp only [List.length_cons]
          omega

lemma migrate_mem_fst {env : Env} {urls : List String}
    {p : String × String} (h : p ∈ (migrateImages env urls).m) : p.1 ∈ urls := by
  rw [migrate_m_eq] at h
  simp only [List.mem_filterMap] at h
  obtain ⟨u, hu, hmap⟩ := h
  cases ht : (env.upload u).toOption with
  | none => rw [ht] at hmap; simp at hmap
  | some s =>
      rw [ht] at hmap
      have hps : (u, s) = p := by simpa using hmap
      rw [← hps]
      exact hu

lemma mem_collectImageUrls (q : Question) (u : String) :
    u ∈ collectImageUrls q ↔
      u ∈ rawImageUrls q ∧ u ≠ "" ∧ jsTrim u ≠ "" := by
  unfold collectImageUrls
  rw [mem_insertionDedup, List.mem_filter]
  simp

lemma nodup_collectImageUrls (q : Question) : (collectImageUrls q).Nodup :=
  nodup_insertionDedup _

lemma mem_collect_ne_empty {q : Question} {u : String}
    (h : u ∈ collectImageUrls q) : u ≠ "" ∧ jsTrim u ≠ "" :=
  ((mem_collectImageUrls q u).mp h).2

lemma truthyOptVal_eq_some {o : OptObj} {u : String} (hu : u ≠ "") :
    ((match o.image_url with
      | some w => if w ≠ "" then some w else none
      | none => none) = some u) ↔ o.image_url = some u := by
  cases hio : o.image_url with
  | none => simp
  | some w =>
      by_cases hw : w = ""
      · subst hw
        simp [Ne.symm hu]
      · simp [hw]

lemma truthyOptVals_mem (os : Option (List OptObj)) {u : String} (hu : u ≠ "") :
    u ∈ (os.getD []).filterMap (fun o =>
        match o.image_url with
        | some w => if w ≠ "" then some w else none
        | none => none) ↔ u ∈ optImageVals os := by
  simp only [optImageVals, List.mem_filterMap]
  constructor
  · rintro ⟨o, ho, hval⟩
    exact ⟨o, ho, (truthyOptVal_eq_some hu).mp hval⟩
  · rintro ⟨o, ho, hval⟩
    exact ⟨o, ho, (truthyOptVal_eq_some hu).mpr hval⟩

lemma mem_raw_iff_mem_locations {q : Question} {u : String} (hu : u ≠ "") :
    u ∈ rawImageUrls q ↔ u ∈ imageLocationValues q := by
  unfold rawImageUrls imageLocationValues
  simp only [List.mem_append]
  have hleg : (u ∈ (match q.imageUrl with
      | some w => if w ≠ "" then [w] else []
      | none => ([] : List String))) ↔ u ∈ q.imageUrl.toList := by
    cases hio : q.imageUrl with
    | none => simp
    | some w => by_cases hw : w = "" <;> simp [hw, hu]
  have hopts := truthyOptVals_mem q.options hu
  have hsubs : (u ∈ flatMapL (fun s =>
      contentImageVals s.content ++
      (s.options.getD []).filterMap (fun o =>
        match o.image_url with
        | some w => if w ≠ "" then some w else none
        | none => none)) (q.sub_questions.getD [])) ↔
      u ∈ flatMapL subLocationValues (q.sub_questions.getD []) := by
    induction q.sub_questions.getD [] with
    | nil => simp [flatMapL]
    | cons s t ih =>
        unfold flatMapL
        simp only [List.mem_append, subLocationValues]
        rw [truthyOptVals_mem s.options hu, ih]
  rw [hleg, hopts, hsubs]

lemma alookup_migrate (env : Env) {urls : List String} (hnd : urls.Nodup)
    (v : String) :
    alookup (migrateImages env urls).m v =
      if v ∈ urls then (env.upload v).toOption else none := by
  induction urls with
  | nil => simp [migrateImages, alookup]
  | cons u rest ih =>
      have hnd' : rest.Nodup := hnd.of_cons
      have hu_rest : u ∉ rest := (List.nodup_cons.mp hnd).1
      rw [migrateImages]
      cases hu : env.upload u with
      | ok s =>
          simp only [alookup]
          by_cases hv : u = v
          · subst hv
            simp [hu, Except.toOption]
          · rw [if_neg hv, ih hnd']
            have hvu : v ≠ u := fun h => hv h.symm
            by_cases hv2 : v ∈ rest
            · simp [hv2, List.mem_cons]
            · have hnotc : v ∉ u :: rest := by
                simp [List.mem_cons, hvu, hv2]
              simp [hv2, hnotc]
      | error e =>
          simp only []
          rw [ih hnd']
          by_cases hv : v = u
          · subst hv
            simp [hu_rest, hu, Except.toOption]
          · by_cases hv2 : v ∈ rest
            · simp [hv2, List.mem_cons]
            · have hnotc : v ∉ u :: rest := by
                simp [List.mem_cons, hv, hv2]
              simp [hv2, hnotc]

lemma rewriteLegacy_eq {m : List (String × String)}
    (hm : ∀ p ∈ m, p.1 ≠ "" ∧ p.2 ≠ "") (u? : Option String) :
    rewriteLegacy m u? = u?.map (mapGetOr m) := by
  cases u? with
  | none => rfl
  | some u =>
      rw [rewriteLegacy]
      by_cases hu : u = ""
      · subst hu
        have h0 : alookup m "" = none :=
          alookup_eq_none (fun p hp => (hm p hp).1)
        simp [mapGetOr, h0]
      · rw [if_pos hu]
        cases ha : alookup m u with
        | none => simp [mapGetOr, ha]
        | some t =>
            have ht : t ≠ "" := (hm (u, t) (alookup_mem ha)).2
            simp [mapGetOr, ha, ht]

lemma rewriteOpt_imageUrl {m : List (String × String)}
    (hm : ∀ p ∈ m, p.1 ≠ "" ∧ p.2 ≠ "") (o : OptObj) :
    (rewriteOpt m o).image_url = o.image_url.map (mapGetOr m) := by
  cases hio : o.image_url with
  | none => simp [rewriteOpt, hio]
  | some u =>
      by_cases hu : u = ""
      · subst hu
        have h0 : alookup m "" = none :=
          alookup_eq_none (fun p hp => (hm p hp).1)
        simp [rewriteOpt, hio, mapGetOr, h0]
      · cases ha : alookup m u with
        | none => simp [rewriteOpt, hio, hu, mapGetOr, ha]
        | some t =>
            have ht : t ≠ "" := (hm (u, t) (alookup_mem ha)).2
            simp [rewriteOpt, hio, hu, mapGetOr, ha, ht]

lemma rewriteContent_vals (m : List (String × String)) (c : Option ContentBlock) :
    contentImageVals (rewriteContent m c) = (contentImageVals c).map (mapGetOr m) := by
  cases c with
  | none => rfl
  | some cb =>
      cases hi : cb.images with
      | none => simp [rewriteContent, contentImageVals, hi]
      | some l => simp [rewriteContent, contentImageVals, hi]

lemma rewriteOpts_vals_list {m : List (String × String)}
    (hm : ∀ p ∈ m, p.1 ≠ "" ∧ p.2 ≠ "") (l : List OptObj) :
    (l.map (rewriteOpt m)).filterMap (fun o => o.image_url) =
      (l.filterMap (fun o => o.image_url)).map (mapGetOr m) := by
  induction l with
  | nil => rfl
  | cons o t ih =>
      rw [List.map_cons, List.filterMap_cons, List.filterMap_cons,
        rewriteOpt_imageUrl hm o]
      cases hio : o.image_url with
      | none => simpa using ih
      | some u => simp [ih]

lemma rewriteOpts_vals {m : List (String × String)}
    (hm : ∀ p ∈ m, p.1 ≠ "" ∧ p.2 ≠ "") (os : Option (List OptObj)) :
    optImageVals (os.map (List.map (rewriteOpt m))) =
      (optImageVals os).map (mapGetOr m) := by
  cases os with
  | none => rfl
  | some l => exact rewriteOpts_vals_list hm l

lemma rewriteSub_vals {m : List (String × String)}
    (hm : ∀ p ∈ m, p.1 ≠ "" ∧ p.2 ≠ "") (s : SubQ) :
    subLocationValues (rewriteSub m s) = (subLocationValues s).map (mapGetOr m) := by
  rw [subLocationValues, subLocationValues, rewriteSub]
  simp only [List.map_append]
  rw [rewriteContent_vals, rewriteOpts_vals hm]

lemma rewriteSubs_vals {m : List (String × String)}
    (hm : ∀ p ∈ m, p.1 ≠ "" ∧ p.2 ≠ "") (l : List SubQ) :
    flatMapL subLocationValues (l.map (rewriteSub m)) =
      (flatMapL subLocationValues l).map (mapGetOr m) := by
  induction l with
  | nil => rfl
  | cons s t ih =>
      rw [List.map_cons, flatMapL, flatMapL, List.map_append,
        rewriteSub_vals hm, ih]

lemma replaceImageUrls_locationValues {m : List (String × String)}
    (hm : ∀ p ∈ m, p.1 ≠ "" ∧ p.2 ≠ "") (q : Question) :
    imageLocationValues (replaceImageUrls q m) =
      (imageLocationValues q).map (mapGetOr m) := by
  rw [imageLocationValues, imageLocationValues, replaceImageUrls]
  simp only [List.map_append]
  have hleg : (rewriteLegacy m q.imageUrl).toList =
      (q.imageUrl.toList).map (mapGetOr m) := by
    rw [rewriteLegacy_eq hm]
    cases q.imageUrl <;> rfl
  have hsubs : flatMapL subLocationValues
      ((q.sub_questions.map (List.map (rewriteSub m))).getD []) =
      (flatMapL subLocationValues (q.sub_questions.getD [])).map (mapGetOr m) := by
    cases q.sub_questions with
    | none => rfl
    | some l => simpa using rewriteSubs_vals hm l
  rw [hleg, rewriteContent_vals, rewriteContent_vals, rewriteOpts_vals hm, hsubs]

lemma strAppend_assoc (a b c : String) : a ++ b ++ c = a ++ (b ++ c) := by
  apply String.ext
  simp [String.data_append]

lemma strContains_mid (a b c : String) : strContains (a ++ (b ++ c)) b = true := by
  rw [strContains]
  have h : (a ++ (b ++ c)).data = a.data ++ (b.data ++ c.data) := by
    simp [String.data_append]
  rw [h]
  exact containsSub_append_mid _ _ _

lemma filterMap_deleteObjKey_uploads (urls : List String) :
    (urls.map Ev.uploadImage).filterMap deleteObjKeyOf = [] := by
  induction urls with
  | nil => rfl
  | cons u t ih => simp [deleteObjKeyOf, ih]

lemma filterMap_deleteObjKey_deletes (keys : List String) :
    (keys.map Ev.deleteObj).filterMap deleteObjKeyOf = keys := by
  induction keys with
  | nil => rfl
  | cons k t ih => simp [deleteObjKeyOf, ih]

lemma countP_deleteDoc_uploads (urls : List String) :
    (urls.map Ev.uploadImage).countP isDeleteDocEv = 0 := by
  induction urls with
  | nil => rfl
  | cons u t ih => simp [List.countP_cons, isDeleteDocEv, ih]

lemma countP_deleteDoc_deletes (keys : List String) :
    (keys.map Ev.deleteObj).countP isDeleteDocEv = 0 := by
  induction keys with
  | nil => rfl
  | cons k t ih => simp [List.countP_cons, isDeleteDocEv, ih]

lemma getInsertedDoc_skip_uploads (urls : List String) (rest : List Ev) :
    getInsertedDoc (urls.map Ev.uploadImage ++ rest) = getInsertedDoc rest := by
  induction urls with
  | nil => rfl
  | cons u t ih =>
      rw [List.map_cons, List.cons_append, getInsertedDoc, List.findSome?_cons]
      simp only [insertedDocOf]
      exact ih

lemma migrate_keys_len (env : Env) (urls : List String) :
    (migrateImages env urls).keys.length =
      urls.countP (fun u => (env.upload u).toOption.isSome) := by
  rw [migrate_keys_eq, List.length_map, migrate_m_eq, length_filterMap_eq_countP]
  congr 1
  funext u
  cases h : (env.upload u).toOption <;> simp [h]

lemma migrate_mem_ok {env : Env} {urls : List String}
    {p : String × String} (h : p ∈ (migrateImages env urls).m) :
    env.upload p.1 = .ok p.2 := by
  rw [migrate_m_eq] at h
  simp only [List.mem_filterMap] at h
  obtain ⟨u, hu, hmap⟩ := h
  cases ht : (env.upload u).toOption with
  | none => rw [ht] at hmap; simp at hmap
  | some s =>
      rw [ht] at hmap
      have hps : (u, s) = p := by simpa using hmap
      rw [← hps]
      cases he : env.upload u with
      | ok w => rw [he] at ht; simp [Except.toOption] at ht; simp [ht]
      | error e2 => rw [he] at ht; simp [Except.toOption] at ht

/-- The value returned by a successful upload of `v`, defaulting to `v`
itself when the upload fails; used to state rewrite conclusions. -/
def uploadVal (env : Env) (v : String) : String :=
  match env.upload v with
  | .ok s => s
  | .error _ => v

/-- C5: the extractor returns the deduplicated set of distinct, non-empty
(after trimming) image URL strings taken from exactly the six reference
locations; empty and whitespace-only strings are excluded, missing fields
contribute nothing, and the function is total, with no error path. -/
theorem collectImageUrls_extractor_C5 (q : Question) :
    (collectImageUrls q).Nodup ∧
    ∀ u : String, u ∈ collectImageUrls q ↔
      (u ∈ imageLocationValues q ∧ jsTrim u ≠ "") := by
  refine ⟨nodup_collectImageUrls q, fun u => ?_⟩
  rw [mem_collectImageUrls]
  constructor
  · rintro ⟨hraw, hne, htrim⟩
    exact ⟨(mem_raw_iff_mem_locations hne).mp hraw, htrim⟩
  · rintro ⟨hloc, htrim⟩
    have hne : u ≠ "" := by
      intro h
      rw [h] at htrim
      exact htrim rfl
    exact ⟨(mem_raw_iff_mem_locations hne).mpr hloc, hne, htrim⟩

/-- C10: for every falsy source URL (absent or empty), both
implementations of the image upload throw `No image URL provided` before
issuing any fetch or object-store write. -/
theorem uploadImageToS3_guard_C10 (env : S3Env) (bucket : String)
    (u : Option String) (h : jsTruthyS u = false) :
    uploadImageToS3 env bucket u = (.error "No image URL provided", []) ∧
    uploadImageToS3V2 env u = (.error "No image URL provided", []) := by
  constructor
  · rw [uploadImageToS3.eq_def, h]
    rfl
  · rw [uploadImageToS3V2.eq_def, h]
    rfl

/-- Witness for C10 at the concrete falsy input `some ""`. -/
def s3EnvW : S3Env :=
  { fetchs := fun _ => .ok (),
    hashHex := fun _ => "abc123",
    putResult := .ok (),
    bucket := some "paperplane-diagrams",
    region := "ap-southeast-2" }

theorem uploadImageToS3_guard_C10_witness :
    jsTruthyS (some "") = false ∧
    (uploadImageToS3 s3EnvW "paperplane-diagrams" (some "") =
        (.error "No image URL provided", []) ∧
      uploadImageToS3V2 s3EnvW (some "") =
        (.error "No image URL provided", [])) :=
  ⟨rfl, uploadImageToS3_guard_C10 s3EnvW "paperplane-diagrams" (some "") rfl⟩

lemma batch_foldl (env : Env) (qs : List Question) :
    ∀ (acc : List UploadResult) (s f : Nat),
      qs.foldl
        (fun acc q =>
          let r := (uploadQuestionToDB env q).1
          (acc.1 ++ [r],
           if r.success then acc.2.1 + 1 else acc.2.1,
           if r.success then acc.2.2 else acc.2.2 + 1))
        (acc, s, f) =
      (acc ++ runSequential env qs,
       s + (runSequential env qs).countP (fun r => r.success),
       f + (runSequential env qs).countP (fun r => !r.success)) := by
  induction qs with
  | nil =>
      intro acc s f
      simp [runSequential]
  | cons q t ih =>
      intro acc s f
      rw [List.foldl_cons, runSequential]
      rw [ih]
      cases hr : (uploadQuestionToDB env q).1.success <;>
        simp [hr, List.countP_cons, List.append_assoc] <;> omega

/-- C7: the batch upload runs the single-question protocol sequentially,
returns one result per input question in submission order, counts the
successes and failures among exactly those results, and processes every
question regardless of individual failures (the single-question protocol
is total, so no failure can abort the batch). -/
theorem uploadMultipleQuestions_batch_C7 (env : Env) (qs : List Question) :
    (uploadMultipleQuestions env qs).results = runSequential env qs ∧
    (uploadMultipleQuestions env qs).results.length = qs.length ∧
    (uploadMultipleQuestions env qs).successful =
      (uploadMultipleQuestions env qs).results.countP (fun r => r.success) ∧
    (uploadMultipleQuestions env qs).failed =
      (uploadMultipleQuestions env qs).results.countP (fun r => !r.success) ∧
    (uploadMultipleQuestions env qs).successful +
      (uploadMultipleQuestions env qs).failed = qs.length := by
  have hlen : ∀ ts : List Question, (runSequential env ts).length = ts.length := by
    intro ts
    induction ts with
    | nil => rfl
    | cons x t ih => rw [runSequential, List.length_cons, List.length_cons, ih]
  have hcount : ∀ l : List UploadResult,
      l.countP (fun r => r.success) + l.countP (fun r => !r.success) = l.length := by
    intro l
    induction l with
    | nil => rfl
    | cons r t ih =>
        rw [List.countP_cons, List.countP_cons, List.length_cons]
        cases hr : r.success <;> simp [hr] <;> omega
  have hb : uploadMultipleQuestions env qs =
      ⟨(runSequential env qs).countP (fun r => r.success),
       (runSequential env qs).countP (fun r => !r.success),
       runSequential env qs⟩ := by
    rw [uploadMultipleQuestions]
    rw [batch_foldl env qs [] 0 0]
    simp
  rw [hb]
  refine ⟨rfl, hlen qs, rfl, rfl, ?_⟩
  rw [hcount (runSequential env qs), hlen qs]

/-- C2: when the duplicate check reports that the id already exists, the
upload terminates immediately with a non-exceptional failure result whose
message mentions the id and the words `already exists`, and the trace
records no image upload, no document insert and no rollback deletion —
only the existence check itself. -/
theorem uploadQuestionToDB_duplicate_C2 (env : Env) (q : Question)
    (h : env.existsQ q.id = .ok true) :
    (uploadQuestionToDB env q).1.success = false ∧
    strContains (uploadQuestionToDB env q).1.message "already exists" = true ∧
    strContains (uploadQuestionToDB env q).1.message (jsIdToString q.id) = true ∧
    (uploadQuestionToDB env q).2 = [Ev.existsCheck q.id] := by
  have hrun : uploadQuestionToDB env q =
      ({ success := false,
         message := "Question " ++ jsIdToString q.id ++
           " already exists in database. Please delete it first or use a different question." },
       [Ev.existsCheck q.id]) := by
    rw [uploadQuestionToDB.eq_def, h]
  rw [hrun]
  refine ⟨rfl, ?_, ?_, rfl⟩
  · have hsplit : (" already exists in database. Please delete it first or use a different question." : String) =
        " " ++ ("already exists" ++ " in database. Please delete it first or use a different question.") := by
      decide
    rw [hsplit, ← strAppend_assoc ("Question " ++ jsIdToString q.id) " "]
    exact strContains_mid _ _ _
  · rw [strAppend_assoc]
    exact strContains_mid _ _ _

/-- Witness environment for the duplicate-rejection theorem. -/
def envDupW : Env :=
  { existsQ := fun _ => .ok true,
    upload := fun _ => .error "unreachable",
    insertResult := fun _ => .error "unreachable",
    deleteDocResult := fun _ => .ok (),
    deleteObjResult := fun _ => .ok (),
    now := 0 }

/-- Witness question with id `q1` for the duplicate-rejection theorem. -/
def qDupW : Question :=
  { id := JsId.str "q1",
    content := some { images := some ["http://img/a.png"] } }

theorem uploadQuestionToDB_duplicate_C2_witness :
    (uploadQuestionToDB envDupW qDupW).1.success = false ∧
    strContains (uploadQuestionToDB envDupW qDupW).1.message "already exists" = true ∧
    strContains (uploadQuestionToDB envDupW qDupW).1.message (jsIdToString qDupW.id) = true ∧
    (uploadQuestionToDB envDupW qDupW).2 = [Ev.existsCheck qDupW.id] :=
  uploadQuestionToDB_duplicate_C2 envDupW qDupW rfl

lemma uploadQuestionToDB_error_eval (env : Env) (q : Question) (e : String)
    (hex : env.existsQ q.id = .ok false)
    (hins : env.insertResult q.id = .error e) :
    uploadQuestionToDB env q =
      ({ success := false,
         message := "Upload failed: " ++ e ++ ". All changes have been rolled back." },
       Ev.existsCheck q.id :: (collectImageUrls q).map Ev.uploadImage ++
         [Ev.insertDoc (saveQuestionToMongoDB env
            (replaceImageUrls q (migrateImages env (collectImageUrls q)).m)
            (q.imageUrl.bind (alookup (migrateImages env (collectImageUrls q)).m))).1] ++
         rollbackEvs none (migrateImages env (collectImageUrls q)).keys) := by
  rw [uploadQuestionToDB.eq_def, hex]
  simp only [saveQuestionToMongoDB, replaceImageUrls, hins]

lemma uploadQuestionToDB_success_eval (env : Env) (q : Question) (mid : String)
    (hex : env.existsQ q.id = .ok false)
    (hins : env.insertResult q.id = .ok mid) :
    uploadQuestionToDB env q =
      ({ success := true,
         message := successMessage (migrateImages env (collectImageUrls q)).failed,
         s3Urls := some ((migrateImages env (collectImageUrls q)).m.map Prod.snd),
         mongoId := some mid,
         failedImages :=
           if (migrateImages env (collectImageUrls q)).failed.isEmpty then none
           else some (migrateImages env (collectImageUrls q)).failed },
       Ev.existsCheck q.id :: (collectImageUrls q).map Ev.uploadImage ++
         [Ev.insertDoc (saveQuestionToMongoDB env
            (replaceImageUrls q (migrateImages env (collectImageUrls q)).m)
            (q.imageUrl.bind (alookup (migrateImages env (collectImageUrls q)).m))).1]) := by
  rw [uploadQuestionToDB.eq_def, hex]
  simp only [saveQuestionToMongoDB, replaceImageUrls, hins]

lemma filterMap_comp_uploads (l : List String) :
    l.filterMap (deleteObjKeyOf ∘ Ev.uploadImage) = [] := by
  induction l with
  | nil => rfl
  | cons u t ih => simp [deleteObjKeyOf, Function.comp, ih]

lemma filterMap_comp_deletes (l : List String) :
    l.filterMap (deleteObjKeyOf ∘ Ev.deleteObj) = l := by
  induction l with
  | nil => rfl
  | cons u t ih => simp [deleteObjKeyOf, Function.comp, ih]

/-- C1: when the duplicate check passes and the document insert throws,
the upload returns the rolled-back failure result (never throwing,
whatever the rollback oracles answer), issues exactly one object-store
delete per recorded key — K deletes after K successful migrations — and
issues no document-store delete, since no store id was obtained. -/
theorem uploadQuestionToDB_rollback_C1 (env : Env) (q : Question) (e : String)
    (hex : env.existsQ q.id = .ok false)
    (hins : env.insertResult q.id = .error e) :
    (uploadQuestionToDB env q).1.success = false ∧
    (uploadQuestionToDB env q).1.message =
      "Upload failed: " ++ e ++ ". All changes have been rolled back." ∧
    (uploadQuestionToDB env q).1.mongoId = none ∧
    (uploadQuestionToDB env q).2.filterMap deleteObjKeyOf =
      (migrateImages env (collectImageUrls q)).keys ∧
    ((uploadQuestionToDB env q).2.filterMap deleteObjKeyOf).length =
      (collectImageUrls q).countP (fun u => (env.upload u).toOption.isSome) ∧
    (uploadQuestionToDB env q).2.countP isDeleteDocEv = 0 := by
  rw [uploadQuestionToDB_error_eval env q e hex hins]
  refine ⟨rfl, rfl, rfl, ?_, ?_, ?_⟩
  · simp [rollbackEvs, deleteObjKeyOf, List.filterMap_append,
      filterMap_comp_uploads, filterMap_comp_deletes]
  · simp [rollbackEvs, deleteObjKeyOf, List.filterMap_append,
      filterMap_comp_uploads, filterMap_comp_deletes, migrate_keys_len]
  · simp [rollbackEvs, List.countP_append, List.countP_cons, isDeleteDocEv,
      countP_deleteDoc_uploads, countP_deleteDoc_deletes]

/-- Witness environment for the rollback theorem: one image migrates, one
fails, the insert throws, and even the rollback deletions fail. -/
def envRollW : Env :=
  { existsQ := fun _ => .ok false,
    upload := fun u =>
      if u = "http://img/a.png" then
        .ok "https://paperplane-diagrams.s3.ap-southeast-2.amazonaws.com/questions/k1.png"
      else .error "Failed to download image",
    insertResult := fun _ => .error "mongo down",
    deleteDocResult := fun _ => .error "rollback delete failed",
    deleteObjResult := fun _ => .error "rollback delete failed",
    now := 7 }

/-- Witness question for the rollback theorem. -/
def qRollW : Question :=
  { id := JsId.str "q9",
    content := some { images := some ["http://img/a.png", "http://img/b.png"] } }

theorem uploadQuestionToDB_rollback_C1_witness :
    (uploadQuestionToDB envRollW qRollW).1.success = false ∧
    (uploadQuestionToDB envRollW qRollW).1.message =
      "Upload failed: " ++ "mongo down" ++ ". All changes have been rolled back." ∧
    (uploadQuestionToDB envRollW qRollW).1.mongoId = none ∧
    (uploadQuestionToDB envRollW qRollW).2.filterMap deleteObjKeyOf =
      (migrateImages envRollW (collectImageUrls qRollW)).keys ∧
    ((uploadQuestionToDB envRollW qRollW).2.filterMap deleteObjKeyOf).length =
      (collectImageUrls qRollW).countP
        (fun u => (envRollW.upload u).toOption.isSome) ∧
    (uploadQuestionToDB envRollW qRollW).2.countP isDeleteDocEv = 0 :=
  uploadQuestionToDB_rollback_C1 envRollW qRollW "mongo down" rfl rfl

/-- C9: the migration bookkeeping is kept in sync — the map gains exactly
one entry per successful upload and the key list one key derived from the
returned URL, a failed attempt touches neither, the success result lists
exactly the values of the map as `s3Urls`, and migrated plus failed counts
add up to the number of distinct references. -/
theorem uploadQuestionToDB_bookkeeping_C9 (env : Env) (q : Question)
    (mid : String)
    (hex : env.existsQ q.id = .ok false)
    (hins : env.insertResult q.id = .ok mid) :
    (migrateImages env (collectImageUrls q)).m =
      (collectImageUrls q).filterMap
        (fun u => (env.upload u).toOption.map (fun s => (u, s))) ∧
    (migrateImages env (collectImageUrls q)).failed =
      (collectImageUrls q).filterMap
        (fun u =>
          match env.upload u with
          | .error e2 => some ⟨u, e2⟩
          | .ok _ => none) ∧
    (migrateImages env (collectImageUrls q)).keys =
      (migrateImages env (collectImageUrls q)).m.map
        (fun p => extractS3Key p.2) ∧
    (migrateImages env (collectImageUrls q)).keys.length =
      (migrateImages env (collectImageUrls q)).m.length ∧
    (uploadQuestionToDB env q).1.success = true ∧
    (uploadQuestionToDB env q).1.s3Urls =
      some ((migrateImages env (collectImageUrls q)).m.map Prod.snd) ∧
    ((migrateImages env (collectImageUrls q)).m.map Prod.snd).length +
      (migrateImages env (collectImageUrls q)).failed.length =
      (collectImageUrls q).length := by
  refine ⟨migrate_m_eq env _, migrate_failed_eq env _, migrate_keys_eq env _,
    ?_, ?_, ?_, ?_⟩
  · rw [migrate_keys_eq, List.length_map]
  · rw [uploadQuestionToDB_success_eval env q mid hex hins]
  · rw [uploadQuestionToDB_success_eval env q mid hex hins]
  · rw [List.length_map]
    exact migrate_len env _

/-- Witness environment for the bookkeeping theorem: one image migrates,
one fails, the insert succeeds. -/
def envBookW : Env :=
  { existsQ := fun _ => .ok false,
    upload := fun u =>
      if u = "http://img/a.png" then
        .ok "https://paperplane-diagrams.s3.ap-southeast-2.amazonaws.com/questions/k1.png"
      else .error "Failed to download image",
    insertResult := fun _ => .ok "65af0c2f9d1e8a0012345678",
    deleteDocResult := fun _ => .ok (),
    deleteObjResult := fun _ => .ok (),
    now := 7 }

/-- Witness question for the bookkeeping theorem. -/
def qBookW : Question :=
  { id := JsId.str "q7",
    imageUrl := some "http://img/a.png",
    content := some { images := some ["http://img/b.png"] } }

theorem uploadQuestionToDB_bookkeeping_C9_witness :
    (migrateImages envBookW (collectImageUrls qBookW)).m =
      (collectImageUrls qBookW).filterMap
        (fun u => (envBookW.upload u).toOption.map (fun s => (u, s))) ∧
    (migrateImages envBookW (collectImageUrls qBookW)).failed =
      (collectImageUrls qBookW).filterMap
        (fun u =>
          match envBookW.upload u with
          | .error e2 => some ⟨u, e2⟩
          | .ok _ => none) ∧
    (migrateImages envBookW (collectImageUrls qBookW)).keys =
      (migrateImages envBookW (collectImageUrls qBookW)).m.map
        (fun p => extractS3Key p.2) ∧
    (migrateImages envBookW (collectImageUrls qBookW)).keys.length =
      (migrateImages envBookW (collectImageUrls qBookW)).m.length ∧
    (uploadQuestionToDB envBookW qBookW).1.success = true ∧
    (uploadQuestionToDB envBookW qBookW).1.s3Urls =
      some ((migrateImages envBookW (collectImageUrls qBookW)).m.map Prod.snd) ∧
    ((migrateImages envBookW (collectImageUrls qBookW)).m.map Prod.snd).length +
      (migrateImages envBookW (collectImageUrls qBookW)).failed.length =
      (collectImageUrls qBookW).length :=
  uploadQuestionToDB_bookkeeping_C9 envBookW qBookW "65af0c2f9d1e8a0012345678" rfl rfl

lemma filterMap_nil_of_none {g : α → Option β} :
    ∀ {l : List α}, (∀ a ∈ l, g a = none) → l.filterMap g = []
  | [], _ => rfl
  | a :: t, h => by
      rw [List.filterMap_cons, h a (List.mem_cons_self _ _)]
      exact filterMap_nil_of_none (fun b hb => h b (List.mem_cons_of_mem _ hb))

lemma filterMap_single {l : List α} (hnd : l.Nodup)
    {u0 : α} (hmem : u0 ∈ l) {g : α → Option β} {b : β}
    (hg0 : ∀ u ∈ l, u ≠ u0 → g u = none) (hgu : g u0 = some b) :
    l.filterMap g = [b] := by
  induction l with
  | nil => cases hmem
  | cons x t ih =>
      by_cases hx : x = u0
      · subst hx
        rw [List.filterMap_cons, hgu]
        have hnil : t.filterMap g = [] := by
          apply filterMap_nil_of_none
          intro a ha
          have hax : a ≠ x := by
            intro h
            exact (List.nodup_cons.mp hnd).1 (h ▸ ha)
          exact hg0 a (List.mem_cons_of_mem _ ha) hax
        rw [hnil]
      · rw [List.filterMap_cons, hg0 x (List.mem_cons_self _ _) hx]
        have hmem2 : u0 ∈ t := by
          cases List.mem_cons.mp hmem with
          | inl h => exact absurd h.symm hx
          | inr h => exact h
        exact ih hnd.of_cons hmem2
          (fun u hu hne => hg0 u (List.mem_cons_of_mem _ hu) hne)

lemma getInsertedDoc_trace (i : JsId) (urls : List String) (d : MongoDoc)
    (rest : List Ev) :
    getInsertedDoc
      (Ev.existsCheck i :: urls.map Ev.uploadImage ++ (Ev.insertDoc d :: rest)) =
      some d := by
  have h1 : getInsertedDoc
      (Ev.existsCheck i :: urls.map Ev.uploadImage ++ (Ev.insertDoc d :: rest)) =
      getInsertedDoc (urls.map Ev.uploadImage ++ (Ev.insertDoc d :: rest)) := by
    rw [getInsertedDoc, getInsertedDoc, List.cons_append, List.findSome?_cons]
    rfl
  rw [h1, getInsertedDoc_skip_uploads, getInsertedDoc, List.findSome?_cons]
  rfl

/-- C3: a single tolerated migration failure among several distinct
references never throws: the upload still succeeds, the result carries
exactly one `failedImages` entry with that URL and error, the message
mentions that one image failed, and the persisted document keeps the
original URL at every slot holding the failed reference while every other
extracted reference is replaced by its object-store URL. -/
theorem uploadQuestionToDB_toleratedFailure_C3 (env : Env) (q : Question)
    (ufail e mid : String)
    (hex : env.existsQ q.id = .ok false)
    (hins : env.insertResult q.id = .ok mid)
    (hmem : ufail ∈ collectImageUrls q)
    (hfail : env.upload ufail = .error e)
    (hok : ∀ u ∈ collectImageUrls q, u ≠ ufail →
      (env.upload u).toOption.isSome = true ∧ uploadVal env u ≠ "")
    (_hN : 1 < (collectImageUrls q).length) :
    (uploadQuestionToDB env q).1.success = true ∧
    (uploadQuestionToDB env q).1.failedImages = some [⟨ufail, e⟩] ∧
    strContains (uploadQuestionToDB env q).1.message "1 image(s) failed" = true ∧
    (getInsertedDoc (uploadQuestionToDB env q).2).map
        (fun d => imageLocationValues d.question) =
      some ((imageLocationValues q).map (fun v =>
        if v ∈ collectImageUrls q ∧ v ≠ ufail then uploadVal env v else v)) := by
  have hnd := nodup_collectImageUrls q
  have hfailed : (migrateImages env (collectImageUrls q)).failed =
      [⟨ufail, e⟩] := by
    rw [migrate_failed_eq]
    apply filterMap_single hnd hmem
    · intro u hu hne
      have hsome := (hok u hu hne).1
      cases hu2 : env.upload u with
      | ok s => rfl
      | error e2 =>
          rw [hu2] at hsome
          simp [Except.toOption] at hsome
    · rw [hfail]
  have hmkeys : ∀ p ∈ (migrateImages env (collectImageUrls q)).m,
      p.1 ≠ "" ∧ p.2 ≠ "" := by
    intro p hp
    have h1 : p.1 ∈ collectImageUrls q := migrate_mem_fst hp
    have hup : env.upload p.1 = .ok p.2 := migrate_mem_ok hp
    have hpf : p.1 ≠ ufail := by
      intro h
      rw [h, hfail] at hup
      cases hup
    refine ⟨(mem_collect_ne_empty h1).1, ?_⟩
    have hval : uploadVal env p.1 = p.2 := by
      rw [uploadVal.eq_def, hup]
    rw [← hval]
    exact (hok p.1 h1 hpf).2
  have hfun : mapGetOr (migrateImages env (collectImageUrls q)).m = fun v =>
      if v ∈ collectImageUrls q ∧ v ≠ ufail then uploadVal env v else v := by
    funext v
    have hal := alookup_migrate env hnd v
    by_cases hv : v ∈ collectImageUrls q
    · by_cases hvf : v = ufail
      · subst hvf
        simp [mapGetOr, hal, hv, hfail, Except.toOption]
      · obtain ⟨hsome, hne⟩ := hok v hv hvf
        cases hu2 : env.upload v with
        | error e2 =>
            rw [hu2] at hsome
            simp [Except.toOption] at hsome
        | ok s =>
            have hs : uploadVal env v = s := by rw [uploadVal.eq_def, hu2]
            have hsne : s ≠ "" := hs ▸ hne
            simp [mapGetOr, hal, hv, hu2, Except.toOption, hsne, hvf, hs]
    · simp [mapGetOr, hal, hv]
  have hleg2 : jsOr (q.imageUrl.bind
        (alookup (migrateImages env (collectImageUrls q)).m))
      (replaceImageUrls q (migrateImages env (collectImageUrls q)).m).imageUrl =
      (replaceImageUrls q (migrateImages env (collectImageUrls q)).m).imageUrl := by
    simp only [replaceImageUrls]
    cases hq : q.imageUrl with
    | none => simp [jsOr, jsTruthyS, rewriteLegacy]
    | some u =>
        cases ha : alookup (migrateImages env (collectImageUrls q)).m u with
        | none => simp [jsOr, jsTruthyS, ha]
        | some s =>
            have hmem2 := alookup_mem ha
            have hu : u ≠ "" := (hmkeys _ hmem2).1
            have hs : s ≠ "" := (hmkeys _ hmem2).2
            simp [jsOr, jsTruthyS, hs, rewriteLegacy, hu, ha]
  rw [uploadQuestionToDB_success_eval env q mid hex hins]
  refine ⟨rfl, ?_, ?_, ?_⟩
  · simp [hfailed]
  · have hmsgLit : successMessage [(⟨ufail, e⟩ : FailedImage)] =
        "Successfully uploaded to database! Warning: 1 image(s) failed to upload to S3. The question was saved with original image URLs." := by
      have h1 : ([(⟨ufail, e⟩ : FailedImage)]).isEmpty = false := rfl
      have h2 : ([(⟨ufail, e⟩ : FailedImage)]).length = 1 := rfl
      unfold successMessage
      rw [h1, h2]
      rw [if_neg (by decide : ¬(false = true))]
      decide
    show strContains
      (successMessage (migrateImages env (collectImageUrls q)).failed)
      "1 image(s) failed" = true
    rw [hfailed, hmsgLit]
    decide
  · rw [getInsertedDoc_trace]
    refine congrArg some ?_
    simp only [saveQuestionToMongoDB]
    rw [hleg2]
    have heta : ∀ x : Question, ({ x with imageUrl := x.imageUrl }) = x :=
      fun x => rfl
    rw [heta]
    rw [replaceImageUrls_locationValues hmkeys q, hfun]

/-- Witness environment for the partial-failure theorem: the first image
migrates, the second fails, the insert succeeds. -/
def envPartW : Env :=
  { existsQ := fun _ => .ok false,
    upload := fun u =>
      if u = "http://img/a.png" then
        .ok "https://paperplane-diagrams.s3.ap-southeast-2.amazonaws.com/questions/k1.png"
      else .error "Failed to download image",
    insertResult := fun _ => .ok "65af0c2f9d1e8a0087654321",
    deleteDocResult := fun _ => .ok (),
    deleteObjResult := fun _ => .ok (),
    now := 3 }

/-- Witness question with two distinct references for the partial-failure
theorem. -/
def qPartW : Question :=
  { id := JsId.str "q3",
    content := some { images := some ["http://img/a.png", "http://img/b.png"] } }

theorem uploadQuestionToDB_toleratedFailure_C3_witness :
    (uploadQuestionToDB envPartW qPartW).1.success = true ∧
    (uploadQuestionToDB envPartW qPartW).1.failedImages =
      some [⟨"http://img/b.png", "Failed to download image"⟩] ∧
    strContains (uploadQuestionToDB envPartW qPartW).1.message
      "1 image(s) failed" = true ∧
    (getInsertedDoc (uploadQuestionToDB envPartW qPartW).2).map
        (fun d => imageLocationValues d.question) =
      some ((imageLocationValues qPartW).map (fun v =>
        if v ∈ collectImageUrls qPartW ∧ v ≠ "http://img/b.png" then
          uploadVal envPartW v
        else v)) :=
  uploadQuestionToDB_toleratedFailure_C3 envPartW qPartW
    "http://img/b.png" "Failed to download image" "65af0c2f9d1e8a0087654321"
    rfl rfl (by decide) rfl (by decide) (by decide)

/-- Caller question for the mutation counterexample: its content block is
the heap object at address 0, holding one image URL. -/
def qMutW : QuestionRef := { content := some 0 }

/-- Caller-visible heap before the rewrite. -/
def heapMutW : ObjHeap := [some ["http://img/a.png"]]

/-- Migration map for the mutation counterexample. -/
def mMutW : List (String × String) :=
  [("http://img/a.png",
    "https://paperplane-diagrams.s3.ap-southeast-2.amazonaws.com/questions/k1.png")]

/-- C4: the rewriter, modelled at reference level, assigns the mapped
images list through the content object it shares with the caller via the
shallow copy; after the call the heap cell the caller still references
holds the object-store URL instead of the original value, so the input is
mutated and the no-mutation claim fails on the code. -/
theorem replaceImageUrls_mutates_input_C4 :
    heapImages heapMutW 0 = some ["http://img/a.png"] ∧
    heapImages (replaceImageUrlsRef qMutW mMutW heapMutW).2 0 =
      some ["https://paperplane-diagrams.s3.ap-southeast-2.amazonaws.com/questions/k1.png"] ∧
    (replaceImageUrlsRef qMutW mMutW heapMutW).2 ≠ heapMutW := by
  decide

/-- Environment for the originalImageUrl evaluation: the legacy image
migrates successfully and the insert succeeds. -/
def envOrigW : Env :=
  { existsQ := fun _ => .ok false,
    upload := fun _ =>
      .ok "https://paperplane-diagrams.s3.ap-southeast-2.amazonaws.com/questions/h.png",
    insertResult := fun _ => .ok "65af0c2f9d1e8a00aaaa0000",
    deleteDocResult := fun _ => .ok (),
    deleteObjResult := fun _ => .ok (),
    now := 1 }

/-- Question with a legacy image URL for the originalImageUrl evaluation. -/
def qOrigW : Question :=
  { id := JsId.str "q6", imageUrl := some "http://orig/a.png" }

/-- C6: evaluating the pipeline at a question whose legacy image migrates
successfully shows that the persisted bookkeeping field `originalImageUrl`
holds the object-store URL, not the caller original URL — the insert
receives the already-rewritten question, so `question.imageUrl` inside
`saveQuestionToMongoDB` is no longer the original reference. -/
theorem saveQuestion_originalImageUrl_C6 :
    qOrigW.imageUrl = some "http://orig/a.png" ∧
    (getInsertedDoc (uploadQuestionToDB envOrigW qOrigW).2).map
        (fun d => d.originalImageUrl) =
      some (some "https://paperplane-diagrams.s3.ap-southeast-2.amazonaws.com/questions/h.png") ∧
    (getInsertedDoc (uploadQuestionToDB envOrigW qOrigW).2).map
        (fun d => d.originalImageUrl) ≠ some qOrigW.imageUrl := by
  decide

/-- Store holding one question with the string id `q1`, as created by the
upload pipeline and by the test scripts of the repository. -/
def storeC8 : List StoredDoc :=
  [{ storeOid := "65af0c2f9d1e8a0012345678", id := JsId.str "q1" }]

/-- C8 counterexample: a stored question whose logical id is the string
`q1` is not returned when looked up by exactly that value, because the
lookup first coerces the supplied value with `parseInt`, yielding `NaN`
for a non-numeric string. -/
theorem getQuestionById_stringId_counterexample_C8 :
    (∃ d ∈ storeC8, d.id = JsId.str "q1") ∧
    getQuestionById storeC8 (JsId.str "q1") = none := by
  decide

/-- C8 amended: the lookup matches on the logical id field after coercing
the supplied value with `parseInt` — a stored document is returned iff its
id equals `parseInt` of the supplied value, so non-numeric string ids can
never be found — and the result never depends on the store-assigned
identifier. -/
theorem getQuestionById_parseInt_C8 (store : List StoredDoc) (qid : JsId) :
    (∀ d, getQuestionById store qid = some d →
      d ∈ store ∧ mongoEq d.id (jsParseInt qid) = true) ∧
    (getQuestionById store qid = none ↔
      ∀ d ∈ store, mongoEq d.id (jsParseInt qid) = false) ∧
    (∀ f : String → String,
      getQuestionById (store.map (fun d => { d with storeOid := f d.storeOid })) qid =
        (getQuestionById store qid).map
          (fun d => { d with storeOid := f d.storeOid })) := by
  refine ⟨?_, ?_, ?_⟩
  · intro d hd
    rw [getQuestionById] at hd
    induction store with
    | nil => cases hd
    | cons x t ih =>
        rw [findOne] at hd
        by_cases hp : mongoEq x.id (jsParseInt qid) = true
        · rw [if_pos hp] at hd
          cases hd
          exact ⟨List.mem_cons_self _ _, hp⟩
        · rw [if_neg hp] at hd
          have h2 := ih hd
          exact ⟨List.mem_cons_of_mem _ h2.1, h2.2⟩
  · rw [getQuestionById]
    induction store with
    | nil => simp [findOne]
    | cons x t ih =>
        rw [findOne]
        by_cases hp : mongoEq x.id (jsParseInt qid) = true
        · simp [hp]
        · have hpf : mongoEq x.id (jsParseInt qid) = false :=
            Bool.eq_false_iff.mpr hp
          simp [hp, hpf, ih]
  · intro f
    rw [getQuestionById, getQuestionById]
    induction store with
    | nil => rfl
    | cons x t ih =>
        rw [List.map_cons, findOne, findOne]
        by_cases hp : mongoEq x.id (jsParseInt qid) = true
        · simp only at hp ⊢
          rw [if_pos hp, if_pos hp]
          rfl
        · simp only at hp ⊢
          rw [if_neg hp, if_neg hp]
          exact ih

/-- Store with a numeric id for the amended-lookup witness. -/
def storeNumW : List StoredDoc :=
  [{ storeOid := "65af0c2f9d1e8a00bbbb0000", id := JsId.num 7 }]

theorem getQuestionById_parseInt_C8_witness :
    (∀ d, getQuestionById storeNumW (JsId.str "7") = some d →
      d ∈ storeNumW ∧ mongoEq d.id (jsParseInt (JsId.str "7")) = true) ∧
    (getQuestionById storeNumW (JsId.str "7") = none ↔
      ∀ d ∈ storeNumW, mongoEq d.id (jsParseInt (JsId.str "7")) = false) ∧
    (∀ f : String → String,
      getQuestionById
          (storeNumW.map (fun d => { d with storeOid := f d.storeOid }))
          (JsId.str "7") =
        (getQuestionById storeNumW (JsId.str "7")).map
          (fun d => { d with storeOid := f d.storeOid })) :=
  getQuestionById_parseInt_C8 storeNumW (JsId.str "7")
